import Mathlib

/-!
Verification of the quiz session state machine of the `quiz-sayang`
repository (Streamlit MCQ quiz app, `quiz_app.py` and its variants).
The session state, its initializer, the navigation controller, the answer
processor and the results compiler are embedded shallowly below; the two
random shuffles of the initializer are injected as explicit parameters.
-/

namespace Quiz

/-- The two session modes. In the source `mode` is one of the two radio
strings and is tested with `mode.startswith("Practice")`. -/
inductive Mode
  | practice
  | exam
deriving DecidableEq, Repr

/-- The router screens: `st.session_state.screen` is one of
`"home"`, `"quiz"`, `"results"`. -/
inductive Screen
  | home
  | quiz
  | results
deriving DecidableEq, Repr

/-- One row of the loaded question table
(columns `No, Question, A, B, C, D, Correct`). -/
structure QuestionRecord where
  no : String
  question : String
  optA : String
  optB : String
  optC : String
  optD : String
  correct : String
deriving DecidableEq, Repr

abbrev Table := List QuestionRecord

/-- Python `str.upper()` on the letter strings handled here (kept as a plain
character-list map so that it evaluates by kernel reduction). -/
def strUpper (s : String) : String :=
  String.mk (s.data.map Char.toUpper)

/-- Python `str.strip()`: drop leading and trailing whitespace. -/
def strTrim (s : String) : String :=
  String.mk (((s.data.dropWhile Char.isWhitespace).reverse.dropWhile
    Char.isWhitespace).reverse)

def defaultRecord : QuestionRecord :=
  { no := "", question := "", optA := "", optB := "", optC := "", optD := "", correct := "" }

/-- Row access `df.iloc[gid]`. -/
def rowAt (table : Table) (gid : Nat) : QuestionRecord :=
  table.getD gid defaultRecord

/-- The comprehension `[L for L in ["A","B","C","D"] if str(df.iloc[gid][L]).strip() != ""]`:
the option letters with non-empty text, in source order. -/
def lettersOf (r : QuestionRecord) : List String :=
  (([("A", r.optA), ("B", r.optB), ("C", r.optC), ("D", r.optD)]).filter
    (fun p => strTrim p.2 != "")).map Prod.fst

/-- Python dict lookup with default: `m.get(k, d)`. -/
def dget (m : List (Nat × String)) (k : Nat) (d : String) : String :=
  (m.lookup k).getD d

/-- Python dict update `m[k] = v`; lookups see the newest binding first. -/
def dset (m : List (Nat × String)) (k : Nat) (v : String) : List (Nat × String) :=
  (k, v) :: m

/-- Python `set.add`. -/
def setAdd (s : List Nat) (k : Nat) : List Nat :=
  if k ∈ s then s else k :: s

/-- Python `set.discard`. -/
def setDiscard (s : List Nat) (k : Nat) : List Nat :=
  s.filter (fun x => x != k)

/-- State record `st.session_state` as set up by `init_quiz` and mutated by the
handlers: the session state of the quiz core. `submitted` and the two
Python sets are kept as lists of global question indices. -/
structure SessionState where
  q_indices : List Nat
  idx : Nat
  answers : List (Nat × String)
  correct_map : List (Nat × String)
  score : Nat
  finished : Bool
  mode : Mode
  screen : Screen
  submitted : List Nat
  scored : List Nat
  flags : List Nat
  opt_order : List (Nat × List String)
deriving DecidableEq, Repr

/-- Initializer `init_quiz(mode, num_questions, shuffle_questions, shuffle_options)` from
the source. The two calls to `random.shuffle` are injected: `qperm` stands
for the shuffled list of all row indices (used only when
`shuffle_questions`), and `optPerm gid letters` for the shuffled option
order of question `gid` (used only when `shuffle_options` and the question
has more than one option). -/
def init_quiz (table : Table) (mode : Mode) (num_questions : Nat)
    (shuffle_questions : Bool) (shuffle_options : Bool)
    (qperm : List Nat) (optPerm : Nat → List String → List String) : SessionState :=
  let total := table.length
  let n := max 1 (min num_questions total)
  let base := if shuffle_questions then qperm else List.range total
  let q_indices := base.take n
  let opt_order := q_indices.map (fun gid =>
    let letters := lettersOf (rowAt table gid)
    (gid, if shuffle_options && letters.length > 1 then optPerm gid letters else letters))
  { q_indices := q_indices
    idx := 0
    answers := []
    correct_map := q_indices.map (fun i => (i, strUpper (strTrim (rowAt table i).correct)))
    score := 0
    finished := false
    mode := mode
    screen := Screen.quiz
    submitted := []
    scored := []
    flags := []
    opt_order := opt_order }

/-- The global index of the current question:
`st.session_state.q_indices[st.session_state.idx]`. -/
def curGid (s : SessionState) : Nat :=
  s.q_indices.getD s.idx 0

/-- Handler `go_next`: increment `idx`; on overflow mark the session finished and
switch to the results screen. -/
def go_next (s : SessionState) : SessionState :=
  if s.idx + 1 ≥ s.q_indices.length then
    { s with idx := s.idx + 1, finished := true, screen := Screen.results }
  else
    { s with idx := s.idx + 1 }

/-- Handler `go_prev`: `idx = max(0, idx - 1)` (truncated subtraction on `Nat`). -/
def go_prev (s : SessionState) : SessionState :=
  { s with idx := s.idx - 1 }

/-- Handler `jump_to(local_idx)`: clamp to `[0, len(q_indices) - 1]` and set `idx`. -/
def jump_to (s : SessionState) (local_idx : Nat) : SessionState :=
  { s with idx := min local_idx (s.q_indices.length - 1) }

/-- The `Next ▶` control is refused in Practice mode while the current
question is unchecked (`disable_next = not submitted.get(gid, False)`). -/
inductive NavError
  | mustCheckFirst
deriving DecidableEq, Repr

/-- The `Next ▶` handler including its Practice-mode gating: while the
current question is unchecked the button is disabled, modelled as the
`MustCheckFirst` refusal; otherwise `go_next` runs. -/
def nextOp (s : SessionState) : Except NavError SessionState :=
  if s.mode = Mode.practice ∧ curGid s ∉ s.submitted then
    Except.error NavError.mustCheckFirst
  else
    Except.ok (go_next s)

/-- The `Flag ⚑ / Unflag ⚑` button: toggle the current question's
membership in `flags`. -/
def toggle_flag (s : SessionState) : SessionState :=
  let gid := curGid s
  if gid ∈ s.flags then { s with flags := setDiscard s.flags gid }
  else { s with flags := setAdd s.flags gid }

/-- What the submit handler reports back to the user. -/
inductive SubmitResult
  | correct
  | incorrect (correctLetter : String)
  | noKeyAvailable
  | saved
deriving DecidableEq, Repr

/-- The form-submit handler of `render_quiz` once a letter is chosen:
record `answers[gid] = chosen_letter`; in Practice mark the question
checked and score it at most once; in Exam save and advance. -/
def submit (s : SessionState) (chosen_letter : String) : SessionState × SubmitResult :=
  let gid := curGid s
  let s1 := { s with answers := dset s.answers gid chosen_letter }
  match s.mode with
  | Mode.practice =>
      let s2 := { s1 with submitted := setAdd s1.submitted gid }
      let correct_letter := dget s2.correct_map gid ""
      if correct_letter ≠ "" ∧ chosen_letter = correct_letter then
        if gid ∈ s2.scored then (s2, SubmitResult.correct)
        else ({ s2 with score := s2.score + 1, scored := setAdd s2.scored gid },
              SubmitResult.correct)
      else if correct_letter ∈ (["A", "B", "C", "D"] : List String) then
        (s2, SubmitResult.incorrect correct_letter)
      else
        (s2, SubmitResult.noKeyAvailable)
  | Mode.exam => (go_next s1, SubmitResult.saved)

/-- Helper `render_options(gid, row)`: the stored per-question order, with the
source's fallback of recomputing the non-empty letters. -/
def render_options (table : Table) (s : SessionState) (gid : Nat) : List String :=
  (s.opt_order.lookup gid).getD (lettersOf (rowAt table gid))

/-- Status column of the review table. -/
inductive Status
  | correct
  | incorrect
  | noKey
  | unanswered
deriving DecidableEq, Repr

/-- The nested conditional of `render_results` that classifies one row:
`"Correct" if correct and chosen == correct else ("Incorrect" if chosen
and correct else ("No key" if not correct else "Unanswered"))`. -/
def statusOf (chosen correct : String) : Status :=
  if correct ≠ "" ∧ chosen = correct then Status.correct
  else if chosen ≠ "" ∧ correct ≠ "" then Status.incorrect
  else if correct = "" then Status.noKey
  else Status.unanswered

/-- One row of the review table built by `render_results`. -/
structure ReviewRow where
  no : String
  question : String
  optA : String
  optB : String
  optC : String
  optD : String
  chosen : String
  correct : String
  status : Status
deriving DecidableEq, Repr

/-- The row `render_results` appends for global index `gid`. -/
def compileRow (table : Table) (s : SessionState) (gid : Nat) : ReviewRow :=
  { no := (rowAt table gid).no
    question := (rowAt table gid).question
    optA := (rowAt table gid).optA
    optB := (rowAt table gid).optB
    optC := (rowAt table gid).optC
    optD := (rowAt table gid).optD
    chosen := dget s.answers gid ""
    correct := strUpper (dget s.correct_map gid "")
    status := statusOf (dget s.answers gid "") (strUpper (dget s.correct_map gid "")) }

/-- The review table of `render_results`, one row per selected id in
session order. -/
def reviewRows (table : Table) (s : SessionState) : List ReviewRow :=
  s.q_indices.map (compileRow table s)

/-- The Exam-mode score recomputation loop of `render_results`:
`score = 0; for gid in q_indices: if correct and chosen == correct: score += 1`. -/
def examScore (s : SessionState) : Nat :=
  s.q_indices.foldl (fun score gid =>
    if strUpper (dget s.correct_map gid "") ≠ "" ∧
        dget s.answers gid "" = strUpper (dget s.correct_map gid "") then
      score + 1
    else score) 0

structure ResultsReport where
  score : Nat
  total : Nat
  rows : List ReviewRow
deriving DecidableEq, Repr

/-- Compiler `render_results`: in Exam mode recompute the score from scratch and
store it back into the state; then report the score and the review
table. -/
def compile (table : Table) (s : SessionState) : SessionState × ResultsReport :=
  let s1 := if s.mode = Mode.exam then { s with score := examScore s } else s
  (s1, { score := s1.score, total := s1.q_indices.length, rows := reviewRows table s1 })

/-- The `🔁 Restart same settings` button of `render_results`. -/
def restart (s : SessionState) : SessionState :=
  { s with idx := 0, answers := [], score := 0, finished := false,
           submitted := [], scored := [], screen := Screen.quiz }

/-- The session operations a running quiz responds to. -/
inductive Op
  | next
  | prev
  | jumpTo (i : Nat)
  | submitLetter (l : String)
  | flagToggle
deriving DecidableEq, Repr

/-- Run one operation; a refused `next` leaves the state unchanged. -/
def applyOp (s : SessionState) : Op → SessionState
  | Op.next =>
      match nextOp s with
      | Except.ok t => t
      | Except.error _ => s
  | Op.prev => go_prev s
  | Op.jumpTo i => jump_to s i
  | Op.submitLetter l => (submit s l).1
  | Op.flagToggle => toggle_flag s

/-- Run a sequence of operations. -/
def applyOps (s : SessionState) (ops : List Op) : SessionState :=
  ops.foldl applyOp s

/-- Repeated submit calls for the current question. -/
def submitMany (s : SessionState) (letters : List String) : SessionState :=
  letters.foldl (fun t l => (submit t l).1) s

/-- Transcribed from the spec's wording of the status decision, with its
listed priority: Correct if the correct letter is set and the chosen letter
equals it; otherwise Incorrect if both are set (and differ); otherwise
NoKey if the correct letter is unset; otherwise Unanswered. To be compared
with `statusOf`, which is translated from the code. -/
def specStatus (chosen correct : String) : Status :=
  if correct ≠ "" ∧ chosen = correct then Status.correct
  else if correct ≠ "" ∧ chosen ≠ "" ∧ chosen ≠ correct then Status.incorrect
  else if correct = "" then Status.noKey
  else Status.unanswered

/-- Transcribed from the spec's wording of the Exam score: the number of
ids in `selectedIds` whose recorded answer equals that id's non-empty
correct letter. To be compared with the `examScore` loop of the code. -/
def countCorrect (s : SessionState) : Nat :=
  (s.q_indices.filter (fun gid =>
    decide (strUpper (dget s.correct_map gid "") ≠ "" ∧
      dget s.answers gid "" = strUpper (dget s.correct_map gid "")))).length

/-- States reachable during one quiz run: a fresh initialization followed
by any number of navigation, flag, submit and restart operations. -/
inductive Reachable (table : Table) : SessionState → Prop
  | init (mode : Mode) (num : Nat) (shq shOpt : Bool) (qperm : List Nat)
      (optPerm : Nat → List String → List String) :
      Reachable table (init_quiz table mode num shq shOpt qperm optPerm)
  | step (s : SessionState) (op : Op) : Reachable table s → Reachable table (applyOp s op)
  | restartStep (s : SessionState) : Reachable table s → Reachable table (restart s)

/-- A small concrete question table used by the witnesses: question 0 has
four options and key A, question 1 has two options and key B, question 2
has three options and no key. -/
def exTable : Table :=
  [ { no := "1", question := "Q1", optA := "a1", optB := "b1", optC := "c1", optD := "d1",
      correct := "A" },
    { no := "2", question := "Q2", optA := "a2", optB := "b2", optC := "", optD := "",
      correct := "B" },
    { no := "3", question := "Q3", optA := "a3", optB := "b3", optC := "c3", optD := "",
      correct := "" } ]

/-- An identity stand-in for the injected option shuffle. -/
def noShuffle : Nat → List String → List String := fun _ l => l

/-- A freshly initialized Practice session over `exTable`. -/
def p0 : SessionState := init_quiz exTable Mode.practice 3 false false [] noShuffle

/-- A freshly initialized Exam session over `exTable`. -/
def e0 : SessionState := init_quiz exTable Mode.exam 3 false false [] noShuffle

/-- The bookkeeping invariant of the running score: the score counts the
distinct scored ids, and every scored or checked id has a recorded
answer. -/
def ScoreInv (s : SessionState) : Prop :=
  s.score = s.scored.length ∧ s.scored.Nodup ∧
  (∀ g ∈ s.scored, (s.answers.lookup g).isSome = true) ∧
  (∀ g ∈ s.submitted, (s.answers.lookup g).isSome = true)

lemma mem_setAdd (s : List Nat) (k g : Nat) : g ∈ setAdd s k ↔ g = k ∨ g ∈ s := by
  unfold setAdd
  split_ifs with h
  · constructor
    · exact Or.inr
    · rintro (rfl | hg)
      · exact h
      · exact hg
  · simp [List.mem_cons]

lemma mem_setDiscard (s : List Nat) (k g : Nat) : g ∈ setDiscard s k ↔ g ∈ s ∧ g ≠ k := by
  simp [setDiscard, List.mem_filter, bne_iff_ne]

lemma statusOf_eq_specStatus (chosen correct : String) :
    statusOf chosen correct = specStatus chosen correct := by
  unfold statusOf specStatus
  split_ifs <;> first | rfl | tauto

lemma go_next_proj (s : SessionState) :
    (go_next s).q_indices = s.q_indices ∧ (go_next s).answers = s.answers ∧
    (go_next s).correct_map = s.correct_map ∧ (go_next s).score = s.score ∧
    (go_next s).mode = s.mode ∧ (go_next s).submitted = s.submitted ∧
    (go_next s).scored = s.scored ∧ (go_next s).flags = s.flags ∧
    (go_next s).opt_order = s.opt_order ∧ (go_next s).idx = s.idx + 1 := by
  unfold go_next
  split_ifs <;> exact ⟨rfl, rfl, rfl, rfl, rfl, rfl, rfl, rfl, rfl, rfl⟩

lemma submit_proj (s : SessionState) (l : String) :
    (submit s l).1.q_indices = s.q_indices ∧
    (submit s l).1.correct_map = s.correct_map ∧
    (submit s l).1.mode = s.mode ∧
    (submit s l).1.flags = s.flags ∧
    (submit s l).1.opt_order = s.opt_order := by
  unfold submit
  cases hm : s.mode with
  | practice =>
      dsimp only
      split_ifs <;> exact ⟨rfl, rfl, rfl, rfl, rfl⟩
  | exam =>
      dsimp only
      obtain ⟨h1, h2, h3, h4, h5, h6, h7, h8, h9, h10⟩ :=
        go_next_proj { s with answers := dset s.answers (curGid s) l, mode := Mode.exam }
      exact ⟨h1, h3, h5, h8, h9⟩

lemma applyOp_proj (s : SessionState) (op : Op) :
    (applyOp s op).q_indices = s.q_indices ∧
    (applyOp s op).correct_map = s.correct_map ∧
    (applyOp s op).mode = s.mode ∧
    (applyOp s op).opt_order = s.opt_order := by
  cases op with
  | next =>
      unfold applyOp nextOp
      split_ifs with h
      · exact ⟨rfl, rfl, rfl, rfl⟩
      · obtain ⟨h1, h2, h3, h4, h5, h6, h7, h8, h9, h10⟩ := go_next_proj s
        exact ⟨h1, h3, h5, h9⟩
  | prev => exact ⟨rfl, rfl, rfl, rfl⟩
  | jumpTo i => exact ⟨rfl, rfl, rfl, rfl⟩
  | submitLetter l =>
      obtain ⟨h1, h2, h3, h4, h5⟩ := submit_proj s l
      exact ⟨h1, h2, h3, h5⟩
  | flagToggle =>
      unfold applyOp toggle_flag
      dsimp only
      split_ifs <;> exact ⟨rfl, rfl, rfl, rfl⟩

lemma applyOps_proj (s : SessionState) (ops : List Op) :
    (applyOps s ops).opt_order = s.opt_order ∧
    (applyOps s ops).q_indices = s.q_indices ∧
    (applyOps s ops).correct_map = s.correct_map ∧
    (applyOps s ops).mode = s.mode := by
  induction ops generalizing s with
  | nil => exact ⟨rfl, rfl, rfl, rfl⟩
  | cons op ops ih =>
      obtain ⟨h1, h2, h3, h4⟩ := applyOp_proj s op
      obtain ⟨g1, g2, g3, g4⟩ := ih (applyOp s op)
      exact ⟨g1.trans h4, g2.trans h1, g3.trans h2, g4.trans h3⟩

/-- C2: the per-question option ordering established at initialization is
invariant under every subsequent session operation (next, previous, jumpTo,
submit, flag): after any sequence of operations the stored `opt_order` is
unchanged and `render_options` shows every question's options in the same
positions as before. -/
theorem C2 (table : Table) (s : SessionState) (ops : List Op) (gid : Nat) :
    (applyOps s ops).opt_order = s.opt_order ∧
    render_options table (applyOps s ops) gid = render_options table s gid := by
  obtain ⟨h1, h2, h3, h4⟩ := applyOps_proj s ops
  refine ⟨h1, ?_⟩
  unfold render_options
  rw [h1]

/-- C5: for every selected id, the review-row status produced by `compile`
equals the spec's prioritized cascade (Correct, then Incorrect when both
letters are set and differ, then NoKey when the correct letter is unset,
else Unanswered). -/
theorem C5 (table : Table) (s : SessionState) :
    ((compile table s).2.rows).map ReviewRow.status =
      s.q_indices.map (fun gid =>
        specStatus (dget s.answers gid "") (strUpper (dget s.correct_map gid ""))) := by
  unfold compile reviewRows
  split_ifs with h <;>
    simp [List.map_map, Function.comp, compileRow, statusOf_eq_specStatus]

/-- C6: Restart resets position to 0, answers to empty, score to 0,
checked to empty and scoredIds to empty, while preserving selectedIds,
optionOrder and flags. -/
theorem C6 (s : SessionState) :
    (restart s).idx = 0 ∧ (restart s).answers = [] ∧ (restart s).score = 0 ∧
    (restart s).submitted = [] ∧ (restart s).scored = [] ∧
    (restart s).q_indices = s.q_indices ∧ (restart s).opt_order = s.opt_order ∧
    (restart s).flags = s.flags :=
  ⟨rfl, rfl, rfl, rfl, rfl, rfl, rfl, rfl⟩

/-- C10: navigation (next, previous, jumpTo) and flag toggling never modify
answers, score, scoredIds, checked, selectedIds or optionOrder; they change
only the position (plus, for next overflowing the last question, the
finished status and screen; for flag toggling, only the current id's
membership in flags). -/
theorem C10 (s : SessionState) (i : Nat) :
    ((go_next s).answers = s.answers ∧ (go_next s).score = s.score ∧
      (go_next s).scored = s.scored ∧ (go_next s).submitted = s.submitted ∧
      (go_next s).q_indices = s.q_indices ∧ (go_next s).opt_order = s.opt_order ∧
      (go_next s).flags = s.flags ∧ (go_next s).idx = s.idx + 1 ∧
      (go_next s).finished = (if s.idx + 1 ≥ s.q_indices.length then true else s.finished) ∧
      (go_next s).screen = (if s.idx + 1 ≥ s.q_indices.length then Screen.results else s.screen)) ∧
    ((go_prev s).answers = s.answers ∧ (go_prev s).score = s.score ∧
      (go_prev s).scored = s.scored ∧ (go_prev s).submitted = s.submitted ∧
      (go_prev s).q_indices = s.q_indices ∧ (go_prev s).opt_order = s.opt_order ∧
      (go_prev s).flags = s.flags ∧ (go_prev s).idx = s.idx - 1 ∧
      (go_prev s).finished = s.finished ∧ (go_prev s).screen = s.screen) ∧
    ((jump_to s i).answers = s.answers ∧ (jump_to s i).score = s.score ∧
      (jump_to s i).scored = s.scored ∧ (jump_to s i).submitted = s.submitted ∧
      (jump_to s i).q_indices = s.q_indices ∧ (jump_to s i).opt_order = s.opt_order ∧
      (jump_to s i).flags = s.flags ∧ (jump_to s i).idx = min i (s.q_indices.length - 1) ∧
      (jump_to s i).finished = s.finished ∧ (jump_to s i).screen = s.screen) ∧
    ((toggle_flag s).answers = s.answers ∧ (toggle_flag s).score = s.score ∧
      (toggle_flag s).scored = s.scored ∧ (toggle_flag s).submitted = s.submitted ∧
      (toggle_flag s).q_indices = s.q_indices ∧ (toggle_flag s).opt_order = s.opt_order ∧
      (toggle_flag s).idx = s.idx ∧ (toggle_flag s).finished = s.finished ∧
      (toggle_flag s).screen = s.screen ∧
      (∀ g : Nat, g ∈ (toggle_flag s).flags ↔
        (if g = curGid s then curGid s ∉ s.flags else g ∈ s.flags))) := by
  refine ⟨?_, ?_, ?_, ?_⟩
  · unfold go_next
    split_ifs with h <;> simp [h]
  · exact ⟨rfl, rfl, rfl, rfl, rfl, rfl, rfl, rfl, rfl, rfl⟩
  · exact ⟨rfl, rfl, rfl, rfl, rfl, rfl, rfl, rfl, rfl, rfl⟩
  · unfold toggle_flag
    dsimp only
    split_ifs with h
    · refine ⟨rfl, rfl, rfl, rfl, rfl, rfl, rfl, rfl, rfl, ?_⟩
      intro g
      by_cases hg : g = curGid s <;> simp [mem_setDiscard, hg, h]
    · refine ⟨rfl, rfl, rfl, rfl, rfl, rfl, rfl, rfl, rfl, ?_⟩
      intro g
      by_cases hg : g = curGid s <;> simp [mem_setAdd, hg, h]

lemma dget_dset_self (m : List (Nat × String)) (k : Nat) (v d : String) :
    dget (dset m k v) k d = v := by
  simp [dget, dset, List.lookup]

lemma lookup_isSome_dset (m : List (Nat × String)) (k g : Nat) (v : String) :
    ((dset m k v).lookup g).isSome = true ↔ g = k ∨ (m.lookup g).isSome = true := by
  unfold dset
  by_cases h : g = k
  · subst h
    simp [List.lookup]
  · have hb : (g == k) = false := by
      simp [h]
    simp [List.lookup, hb, h]

lemma statusOf_noKey (chosen : String) : statusOf chosen "" = Status.noKey := by
  unfold statusOf
  split_ifs <;> simp_all

/-- Field-level description of a Practice-mode submit: it records the
chosen letter for the current question, marks it checked, adds it to the
scored set exactly when the submission is correct, and increments the score
exactly when the submission is correct and the question was not yet
scored; mode, position, selection and answer key are untouched. -/
lemma submit_practice_spec (s : SessionState) (l : String) (hm : s.mode = Mode.practice) :
    (submit s l).1.mode = Mode.practice ∧
    (submit s l).1.idx = s.idx ∧
    (submit s l).1.q_indices = s.q_indices ∧
    (submit s l).1.correct_map = s.correct_map ∧
    (submit s l).1.answers = dset s.answers (curGid s) l ∧
    (submit s l).1.submitted = setAdd s.submitted (curGid s) ∧
    (submit s l).1.scored =
      (if dget s.correct_map (curGid s) "" ≠ "" ∧ l = dget s.correct_map (curGid s) ""
        then setAdd s.scored (curGid s) else s.scored) ∧
    (submit s l).1.score =
      (if dget s.correct_map (curGid s) "" ≠ "" ∧ l = dget s.correct_map (curGid s) ""
          ∧ curGid s ∉ s.scored
        then s.score + 1 else s.score) := by
  unfold submit
  rw [hm]
  dsimp only
  by_cases h1 : dget s.correct_map (curGid s) "" ≠ "" ∧ l = dget s.correct_map (curGid s) ""
  · by_cases h2 : curGid s ∈ s.scored
    · rw [if_pos h1, if_pos h2]
      refine ⟨rfl, rfl, rfl, rfl, rfl, rfl, ?_, ?_⟩
      · rw [if_pos h1]
        show s.scored = setAdd s.scored (curGid s)
        unfold setAdd
        rw [if_pos h2]
      · rw [if_neg (fun hh => hh.2.2 h2)]
    · rw [if_pos h1, if_neg h2]
      refine ⟨rfl, rfl, rfl, rfl, rfl, rfl, ?_, ?_⟩
      · rw [if_pos h1]
      · rw [if_pos ⟨h1.1, h1.2, h2⟩]
  · rw [if_neg h1]
    by_cases h3 : dget s.correct_map (curGid s) "" ∈ (["A", "B", "C", "D"] : List String)
    · rw [if_pos h3]
      refine ⟨rfl, rfl, rfl, rfl, rfl, rfl, ?_, ?_⟩
      · rw [if_neg h1]
      · rw [if_neg (fun hh => h1 ⟨hh.1, hh.2.1⟩)]
    · rw [if_neg h3]
      refine ⟨rfl, rfl, rfl, rfl, rfl, rfl, ?_, ?_⟩
      · rw [if_neg h1]
      · rw [if_neg (fun hh => h1 ⟨hh.1, hh.2.1⟩)]

/-- C3: in Practice mode, next on an unchecked current question is refused
with MustCheckFirst and the state is unchanged; immediately after a submit
for the current question, next succeeds and advances the position by 1; in
Exam mode next is never refused. -/
theorem C3 (s : SessionState) (l : String) :
    (s.mode = Mode.practice → curGid s ∉ s.submitted →
        nextOp s = Except.error NavError.mustCheckFirst ∧ applyOp s Op.next = s) ∧
    (s.mode = Mode.practice →
        nextOp (submit s l).1 = Except.ok (go_next (submit s l).1) ∧
        (go_next (submit s l).1).idx = s.idx + 1) ∧
    (s.mode = Mode.exam → nextOp s = Except.ok (go_next s)) := by
  refine ⟨fun hm hns => ?_, fun hm => ?_, fun hm => ?_⟩
  · have h1 : nextOp s = Except.error NavError.mustCheckFirst := by
      unfold nextOp
      rw [if_pos ⟨hm, hns⟩]
    refine ⟨h1, ?_⟩
    unfold applyOp
    rw [h1]
  · obtain ⟨hmode, hidx, hqi, hcm, hans, hsub, hscored, hscore⟩ := submit_practice_spec s l hm
    have hgid : curGid (submit s l).1 = curGid s := by
      unfold curGid
      rw [hqi, hidx]
    have hmem : curGid (submit s l).1 ∈ (submit s l).1.submitted := by
      rw [hgid, hsub, mem_setAdd]
      exact Or.inl rfl
    constructor
    · unfold nextOp
      rw [if_neg (fun hh => hh.2 hmem)]
    · obtain ⟨g1, g2, g3, g4, g5, g6, g7, g8, g9, g10⟩ := go_next_proj (submit s l).1
      rw [g10, hidx]
  · unfold nextOp
    rw [if_neg (fun hh => by rw [hm] at hh; exact absurd hh.1 (by simp))]

/-- Witness for C3 at a fresh Practice session over `exTable` (and the
Exam part at a fresh Exam session). -/
theorem C3_witness :
    (nextOp p0 = Except.error NavError.mustCheckFirst ∧ applyOp p0 Op.next = p0) ∧
    (nextOp (submit p0 "A").1 = Except.ok (go_next (submit p0 "A").1) ∧
      (go_next (submit p0 "A").1).idx = p0.idx + 1) ∧
    nextOp e0 = Except.ok (go_next e0) :=
  ⟨(C3 p0 "A").1 rfl (by decide), (C3 p0 "A").2.1 rfl, (C3 e0 "A").2.2 rfl⟩

/-- C8: Practice-mode submit on a question whose correct letter is unset
returns NoKeyAvailable, leaves score and scoredIds unchanged, still records
the answer and marks the question checked; and compile builds that
question's review row with status NoKey regardless of the chosen letter. -/
theorem C8 (table : Table) (s : SessionState) (l : String)
    (hm : s.mode = Mode.practice)
    (hkey : dget s.correct_map (curGid s) "" = "") :
    (submit s l).2 = SubmitResult.noKeyAvailable ∧
    (submit s l).1.score = s.score ∧
    (submit s l).1.scored = s.scored ∧
    dget (submit s l).1.answers (curGid s) "" = l ∧
    curGid s ∈ (submit s l).1.submitted ∧
    (compileRow table (submit s l).1 (curGid s)).status = Status.noKey ∧
    (compile table (submit s l).1).2.rows =
      (submit s l).1.q_indices.map (compileRow table (submit s l).1) := by
  obtain ⟨hmode, hidx, hqi, hcm, hans, hsub, hscored, hscore⟩ := submit_practice_spec s l hm
  have hres : (submit s l).2 = SubmitResult.noKeyAvailable := by
    unfold submit
    rw [hm]
    dsimp only
    rw [if_neg (fun hh => hh.1 hkey), if_neg (by rw [hkey]; decide)]
  refine ⟨hres, ?_, ?_, ?_, ?_, ?_, ?_⟩
  · rw [hscore, if_neg (fun hh => hh.1 hkey)]
  · rw [hscored, if_neg (fun hh => hh.1 hkey)]
  · rw [hans, dget_dset_self]
  · rw [hsub, mem_setAdd]
    exact Or.inl rfl
  · unfold compileRow
    dsimp only
    rw [hcm, hkey]
    have hup : strUpper "" = "" := rfl
    rw [hup]
    exact statusOf_noKey _
  · simp [compile, hmode, reviewRows]

/-- Witness for C8: question 2 of `exTable` has no answer key; jump there
in a fresh Practice session and submit letter A. -/
theorem C8_witness :
    (submit (jump_to p0 2) "A").2 = SubmitResult.noKeyAvailable ∧
    (submit (jump_to p0 2) "A").1.score = (jump_to p0 2).score ∧
    (submit (jump_to p0 2) "A").1.scored = (jump_to p0 2).scored ∧
    dget (submit (jump_to p0 2) "A").1.answers (curGid (jump_to p0 2)) "" = "A" ∧
    curGid (jump_to p0 2) ∈ (submit (jump_to p0 2) "A").1.submitted ∧
    (compileRow exTable (submit (jump_to p0 2) "A").1 (curGid (jump_to p0 2))).status
      = Status.noKey ∧
    (compile exTable (submit (jump_to p0 2) "A").1).2.rows =
      (submit (jump_to p0 2) "A").1.q_indices.map
        (compileRow exTable (submit (jump_to p0 2) "A").1) :=
  C8 exTable (jump_to p0 2) "A" (by decide) (by decide)

lemma foldl_count (P : Nat → Prop) [DecidablePred P] (l : List Nat) (n : Nat) :
    l.foldl (fun acc g => if P g then acc + 1 else acc) n
      = n + (l.filter (fun g => decide (P g))).length := by
  induction l generalizing n with
  | nil => simp
  | cons a l ih =>
      simp only [List.foldl_cons]
      rw [ih]
      by_cases h : P a
      · simp [h]
        omega
      · simp [h]

lemma examScore_eq_countCorrect (s : SessionState) : examScore s = countCorrect s := by
  unfold examScore countCorrect
  rw [foldl_count (fun gid => strUpper (dget s.correct_map gid "") ≠ "" ∧
    dget s.answers gid "" = strUpper (dget s.correct_map gid "")) s.q_indices 0]
  rw [Nat.zero_add]

/-- C4: for an Exam-mode session, compile reports a score equal to the
number of selected ids whose recorded answer equals the id's non-empty
correct letter, the report does not depend on the incrementally maintained
score field, and compiling twice in a row yields an identical report. -/
theorem C4 (table : Table) (s : SessionState) (hm : s.mode = Mode.exam) :
    (compile table s).2.score = countCorrect s ∧
    (∀ x : Nat, (compile table { s with score := x }).2 = (compile table s).2) ∧
    (compile table (compile table s).1).2 = (compile table s).2 := by
  refine ⟨?_, ?_, ?_⟩
  · simp [compile, hm, examScore_eq_countCorrect]
  · intro x
    simp [compile, hm]
    constructor
    · exact examScore_eq_countCorrect { s with score := x } |>.trans
        (examScore_eq_countCorrect s).symm
    · rfl
  · simp [compile, hm]
    exact ⟨rfl, rfl⟩

/-- Witness for C4 at an Exam session over `exTable` in which question 0
was answered correctly (Exam submit advances to question 1). -/
theorem C4_witness :
    (compile exTable (submit e0 "A").1).2.score = countCorrect (submit e0 "A").1 ∧
    (∀ x : Nat, (compile exTable { (submit e0 "A").1 with score := x }).2
        = (compile exTable (submit e0 "A").1).2) ∧
    (compile exTable (compile exTable (submit e0 "A").1).1).2
      = (compile exTable (submit e0 "A").1).2 :=
  C4 exTable (submit e0 "A").1 (by decide)

/-- C7: initialization on a non-empty table never errors and selects
exactly `clamp(requestedCount, 1, totalAvailable)` ids, which are distinct
valid row indices forming an initial segment of the (possibly shuffled)
full id sequence. -/
theorem C7 (table : Table) (mode : Mode) (num : Nat) (shq shOpt : Bool)
    (qperm : List Nat) (optPerm : Nat → List String → List String)
    (hne : table ≠ [])
    (hperm : shq = true → qperm.Perm (List.range table.length)) :
    (init_quiz table mode num shq shOpt qperm optPerm).q_indices.length
        = max 1 (min num table.length) ∧
    (init_quiz table mode num shq shOpt qperm optPerm).q_indices.Nodup ∧
    (∀ g ∈ (init_quiz table mode num shq shOpt qperm optPerm).q_indices,
        g < table.length) ∧
    (∃ rest, (init_quiz table mode num shq shOpt qperm optPerm).q_indices ++ rest
        = if shq then qperm else List.range table.length) := by
  have hq : (init_quiz table mode num shq shOpt qperm optPerm).q_indices
      = (if shq then qperm else List.range table.length).take
          (max 1 (min num table.length)) := rfl
  have hbase : (if shq then qperm else List.range table.length).Perm
      (List.range table.length) := by
    cases shq with
    | true => simpa using hperm rfl
    | false => simp
  have htot : 1 ≤ table.length := List.length_pos.mpr hne
  have hn : max 1 (min num table.length) ≤ table.length := by
    have := Nat.min_le_right num table.length
    omega
  refine ⟨?_, ?_, ?_, ?_⟩
  · rw [hq, List.length_take, hbase.length_eq, List.length_range]
    exact Nat.min_eq_left hn
  · rw [hq]
    exact ((List.take_sublist _ _).nodup
      ((hbase.nodup_iff).mpr (List.nodup_range _)))
  · intro g hg
    rw [hq] at hg
    have hg2 := List.take_subset _ _ hg
    have hg3 := (hbase.mem_iff).mp hg2
    exact List.mem_range.mp hg3
  · exact ⟨(if shq then qperm else List.range table.length).drop
      (max 1 (min num table.length)), by rw [hq, List.take_append_drop]⟩

/-- Witness for C7: a shuffled selection from `exTable` with an
out-of-range requested count of 99. -/
theorem C7_witness :
    (init_quiz exTable Mode.practice 99 true false [2, 0, 1] noShuffle).q_indices.length
        = max 1 (min 99 exTable.length) ∧
    (init_quiz exTable Mode.practice 99 true false [2, 0, 1] noShuffle).q_indices.Nodup ∧
    (∀ g ∈ (init_quiz exTable Mode.practice 99 true false [2, 0, 1] noShuffle).q_indices,
        g < exTable.length) ∧
    (∃ rest,
      (init_quiz exTable Mode.practice 99 true false [2, 0, 1] noShuffle).q_indices ++ rest
        = if true then [2, 0, 1] else List.range exTable.length) :=
  C7 exTable Mode.practice 99 true false [2, 0, 1] noShuffle (by decide)
    (fun _ => by decide)

/-- C1: in Practice mode, over any sequence of submits for the current
question, the score increases by exactly 1 when the correct letter appears
in the sequence and the question was not yet scored, and by 0 otherwise
(in particular, once the id is in scoredIds no further submit for it
changes the score); afterwards the id is scored exactly when it was
already scored or the correct letter was submitted. -/
theorem C1 (s : SessionState) (letters : List String) (c : String)
    (hm : s.mode = Mode.practice)
    (hc : dget s.correct_map (curGid s) "" = c) (hne : c ≠ "") :
    (submitMany s letters).score
        = s.score + (if curGid s ∈ s.scored then 0 else if c ∈ letters then 1 else 0) ∧
    (curGid s ∈ (submitMany s letters).scored ↔ curGid s ∈ s.scored ∨ c ∈ letters) := by
  induction letters generalizing s with
  | nil =>
      constructor
      · simp [submitMany]
      · simp [submitMany]
  | cons l ls ih =>
      obtain ⟨hmode, hidx, hqi, hcm, hans, hsub, hscored, hscore⟩ := submit_practice_spec s l hm
      have hgid : curGid (submit s l).1 = curGid s := by
        unfold curGid
        rw [hqi, hidx]
      have hc2 : dget (submit s l).1.correct_map (curGid (submit s l).1) "" = c := by
        rw [hgid, hcm, hc]
      obtain ⟨ihs, ihm2⟩ := ih (submit s l).1 hmode hc2
      rw [hgid] at ihs ihm2
      have hstep : submitMany s (l :: ls) = submitMany (submit s l).1 ls := rfl
      rw [hc] at hscored hscore
      by_cases hl : l = c
      · have hcnd : c ≠ "" ∧ l = c := ⟨hne, hl⟩
        rw [if_pos hcnd] at hscored
        have hmem2 : curGid s ∈ (submit s l).1.scored := by
          rw [hscored, mem_setAdd]
          exact Or.inl rfl
        have hcons : c ∈ l :: ls := List.mem_cons.mpr (Or.inl hl.symm)
        by_cases hmem : curGid s ∈ s.scored
        · rw [if_neg (fun hh => hh.2.2 hmem)] at hscore
          constructor
          · rw [hstep, ihs, hscore, if_pos hmem2, if_pos hmem]
          · rw [hstep, ihm2]
            simp [hscored, mem_setAdd, hmem]
        · rw [if_pos ⟨hne, hl, hmem⟩] at hscore
          constructor
          · rw [hstep, ihs, hscore, if_pos hmem2, if_neg hmem, if_pos hcons]
          · rw [hstep, ihm2]
            simp [hscored, mem_setAdd, hcons]
      · have hmemcons : (c ∈ l :: ls) ↔ c ∈ ls := by
          constructor
          · intro hh
            rcases List.mem_cons.mp hh with hh | hh
            · exact absurd hh.symm hl
            · exact hh
          · exact fun hh => List.mem_cons.mpr (Or.inr hh)
        rw [if_neg (fun hh => hl hh.2)] at hscored
        rw [if_neg (fun hh => hl hh.2.1)] at hscore
        constructor
        · rw [hstep, ihs, hscore, hscored]
          have hx : (if c ∈ l :: ls then 1 else 0) = (if c ∈ ls then 1 else 0) :=
            if_congr hmemcons rfl rfl
          rw [hx]
        · rw [hstep, ihm2, hscored, hmemcons]

/-- Witness for C1: a fresh Practice session over `exTable`, submitting
wrong letter B, then correct letter A, then A again for question 0. -/
theorem C1_witness :
    (submitMany p0 ["B", "A", "A"]).score
        = p0.score + (if curGid p0 ∈ p0.scored then 0
            else if "A" ∈ (["B", "A", "A"] : List String) then 1 else 0) ∧
    (curGid p0 ∈ (submitMany p0 ["B", "A", "A"]).scored ↔
        curGid p0 ∈ p0.scored ∨ "A" ∈ (["B", "A", "A"] : List String)) :=
  C1 p0 ["B", "A", "A"] "A" (by decide) (by decide) (by decide)

lemma scoreInv_init (table : Table) (mode : Mode) (num : Nat) (shq shOpt : Bool)
    (qperm : List Nat) (optPerm : Nat → List String → List String) :
    ScoreInv (init_quiz table mode num shq shOpt qperm optPerm) := by
  refine ⟨rfl, List.nodup_nil, ?_, ?_⟩ <;>
    exact fun g hg => absurd hg (List.not_mem_nil g)

lemma scoreInv_restart (s : SessionState) : ScoreInv (restart s) := by
  refine ⟨rfl, List.nodup_nil, ?_, ?_⟩ <;>
    exact fun g hg => absurd hg (List.not_mem_nil g)

lemma scoreInv_submit (s : SessionState) (l : String) (h : ScoreInv s) :
    ScoreInv (submit s l).1 := by
  obtain ⟨h1, h2, h3, h4⟩ := h
  cases hm : s.mode with
  | practice =>
      obtain ⟨hmode, hidx, hqi, hcm, hans, hsub, hscored, hscore⟩ :=
        submit_practice_spec s l hm
      unfold ScoreInv
      rw [hans, hsub, hscored, hscore]
      by_cases hcnd : dget s.correct_map (curGid s) "" ≠ ""
          ∧ l = dget s.correct_map (curGid s) ""
      · by_cases hmem : curGid s ∈ s.scored
        · rw [if_pos hcnd, if_neg (fun hh => hh.2.2 hmem)]
          have hset : setAdd s.scored (curGid s) = s.scored := by
            unfold setAdd
            rw [if_pos hmem]
          rw [hset]
          refine ⟨h1, h2, ?_, ?_⟩
          · intro g hg
            rw [lookup_isSome_dset]
            exact Or.inr (h3 g hg)
          · intro g hg
            rw [mem_setAdd] at hg
            rw [lookup_isSome_dset]
            rcases hg with rfl | hg
            · exact Or.inl rfl
            · exact Or.inr (h4 g hg)
        · rw [if_pos hcnd, if_pos ⟨hcnd.1, hcnd.2, hmem⟩]
          have hset : setAdd s.scored (curGid s) = curGid s :: s.scored := by
            unfold setAdd
            rw [if_neg hmem]
          rw [hset]
          refine ⟨?_, List.nodup_cons.mpr ⟨hmem, h2⟩, ?_, ?_⟩
          · simp [h1]
          · intro g hg
            rw [lookup_isSome_dset]
            rcases List.mem_cons.mp hg with rfl | hg
            · exact Or.inl rfl
            · exact Or.inr (h3 g hg)
          · intro g hg
            rw [mem_setAdd] at hg
            rw [lookup_isSome_dset]
            rcases hg with rfl | hg
            · exact Or.inl rfl
            · exact Or.inr (h4 g hg)
      · rw [if_neg hcnd, if_neg (fun hh => hcnd ⟨hh.1, hh.2.1⟩)]
        refine ⟨h1, h2, ?_, ?_⟩
        · intro g hg
          rw [lookup_isSome_dset]
          exact Or.inr (h3 g hg)
        · intro g hg
          rw [mem_setAdd] at hg
          rw [lookup_isSome_dset]
          rcases hg with rfl | hg
          · exact Or.inl rfl
          · exact Or.inr (h4 g hg)
  | exam =>
      have key : (submit s l).1
          = go_next { s with answers := dset s.answers (curGid s) l, mode := Mode.exam } := by
        unfold submit
        rw [hm]
      rw [key]
      obtain ⟨g1, g2, g3, g4, g5, g6, g7, g8, g9, g10⟩ :=
        go_next_proj { s with answers := dset s.answers (curGid s) l, mode := Mode.exam }
      unfold ScoreInv
      rw [g2, g4, g6, g7]
      refine ⟨h1, h2, ?_, ?_⟩
      · intro g hg
        rw [lookup_isSome_dset]
        exact Or.inr (h3 g hg)
      · intro g hg
        rw [lookup_isSome_dset]
        exact Or.inr (h4 g hg)

lemma scoreInv_applyOp (s : SessionState) (op : Op) (h : ScoreInv s) :
    ScoreInv (applyOp s op) := by
  obtain ⟨h1, h2, h3, h4⟩ := h
  cases op with
  | next =>
      unfold applyOp nextOp
      split_ifs with hc
      · exact ⟨h1, h2, h3, h4⟩
      · obtain ⟨g1, g2, g3, g4, g5, g6, g7, g8, g9, g10⟩ := go_next_proj s
        unfold ScoreInv
        rw [g2, g4, g6, g7]
        exact ⟨h1, h2, h3, h4⟩
  | prev => exact ⟨h1, h2, h3, h4⟩
  | jumpTo i => exact ⟨h1, h2, h3, h4⟩
  | flagToggle =>
      unfold applyOp toggle_flag
      dsimp only
      split_ifs <;> exact ⟨h1, h2, h3, h4⟩
  | submitLetter l => exact scoreInv_submit s l ⟨h1, h2, h3, h4⟩

/-- C9: in every session state reachable from initialization through
submit, next, previous, jumpTo, flag and restart, the score equals the
number of (distinct) scored ids, every scored id has a recorded answer,
and every checked id has a recorded answer. -/
theorem C9 (table : Table) (s : SessionState) (h : Reachable table s) :
    s.score = s.scored.length ∧ s.scored.Nodup ∧
    (∀ g ∈ s.scored, (s.answers.lookup g).isSome = true) ∧
    (∀ g ∈ s.submitted, (s.answers.lookup g).isSome = true) := by
  induction h with
  | init mode num shq shOpt qperm optPerm =>
      exact scoreInv_init table mode num shq shOpt qperm optPerm
  | step t op ht iht => exact scoreInv_applyOp t op iht
  | restartStep t ht iht => exact scoreInv_restart t

/-- Witness for C9 at the state reached by submitting A for question 0 of
a fresh Practice session and then moving on. -/
theorem C9_witness :
    (applyOps p0 [Op.submitLetter "A", Op.next]).score
        = (applyOps p0 [Op.submitLetter "A", Op.next]).scored.length ∧
    (applyOps p0 [Op.submitLetter "A", Op.next]).scored.Nodup ∧
    (∀ g ∈ (applyOps p0 [Op.submitLetter "A", Op.next]).scored,
        ((applyOps p0 [Op.submitLetter "A", Op.next]).answers.lookup g).isSome = true) ∧
    (∀ g ∈ (applyOps p0 [Op.submitLetter "A", Op.next]).submitted,
        ((applyOps p0 [Op.submitLetter "A", Op.next]).answers.lookup g).isSome = true) :=
  C9 exTable _ (Reachable.step _ Op.next (Reachable.step _ (Op.submitLetter "A")
    (Reachable.init Mode.practice 3 false false [] noShuffle)))

end Quiz
